import Mathlib

/-!
# MTGoLogger: a shallow embedding of `logger.go` and `models.go`

The Go package wraps a zap sugared logger, attaches values read from a
`context.Context` to every record, and builds the logger either from
explicit arguments or from a YAML file selected by environment name.

Modelling conventions
* Go `string` is `String`; a Go `map[string]T` is an association list with
  unique keys (`mapSet` replaces, `mapGet` reads); a nil map is `none` where
  the code can return one.
* `(T, error)` results are pairs `Option T × Option GoError` (`none` = nil).
* A run-time panic is the `Except.error` side of `Except Panic`.
* Code of other packages (the Unicode case table, the YAML decoder, the file
  system, the iteration order of `range` over a map) is a field of `Runtime`
  or `World`; every theorem holds for all of them.
-/

namespace MTGoLogger

/-! ## Values, errors, panics -/

/-- A Go `interface{}` value as far as this package can tell values apart:
a `string`, or a value of another dynamic type (an `int` stands for these). -/
inductive GoVal where
  | str (s : String)
  | int (n : Int)
  deriving DecidableEq, Repr

/-- Go `error` values by origin: `errors.New` of `github.com/pkg/errors`
(the only constructor `logger.go` calls), a failure of `ioutil.ReadFile`, a
failure of `yaml.Unmarshal`. -/
inductive GoError where
  | pkgErrorsNew (msg : String)
  | readFile (detail : String)
  | yaml (detail : String)
  deriving DecidableEq, Repr

/-- A run-time panic. The only one `logger.go` can raise on its own is the
failed single-value type assertion `ctxVal.(string)` in
`getAppendMapFromContext`. -/
inductive Panic where
  | interfaceConversion (key : String) (found : GoVal)
  deriving DecidableEq, Repr

/-- Levels of `zapcore.Level`, in increasing order. -/
inductive Level where
  | DebugLevel
  | InfoLevel
  | WarnLevel
  | ErrorLevel
  | DPanicLevel
  | PanicLevel
  | FatalLevel
  deriving DecidableEq, Repr

/-! ## models.go -/

/-- The struct `LoggerConfig` of `models.go`. -/
structure LoggerConfig where
  Level : String
  OutputPaths : List String
  Appends : List String
  deriving DecidableEq, Repr

/-- One `map[string]string`, as an association list in insertion order. -/
abbrev StrMap := List (String × String)

/-- The struct `LoggerConfigs` of `models.go`: `map[string]*LoggerConfig`; a
key can be bound to a nil pointer (`none`). The map is only ever read, so a nil
map is the empty list. -/
structure LoggerConfigs where
  Configs : List (String × Option LoggerConfig)
  deriving DecidableEq, Repr

/-! ## The parts of zap and lumberjack the package touches -/

/-- The fields of `lumberjack.Logger`. -/
structure LumberjackLogger where
  Filename : String
  MaxSize : Nat
  MaxAge : Nat
  MaxBackups : Nat
  LocalTime : Bool
  Compress : Bool
  deriving DecidableEq, Repr

/-- What `zapcore.AddSync` is applied to in `getWriteSyncers`. -/
inductive WriteSyncer where
  | stdout
  | stderr
  | rotatingFile (l : LumberjackLogger)
  deriving DecidableEq, Repr

/-- The encoder handed to `zapcore.NewCore`. -/
inductive Encoder where
  | jsonProduction
  deriving DecidableEq, Repr

/-- The arguments of `zapcore.NewCore`: encoder, combined sinks, threshold. -/
structure Core where
  enc : Encoder
  out : List WriteSyncer
  level : Level
  deriving DecidableEq, Repr

/-- A `*zap.SugaredLogger`: its core and the fields attached by `With`, in the
order they were attached. -/
structure SugaredLogger where
  core : Core
  fields : List (String × String)
  deriving DecidableEq, Repr

/-- The method `SugaredLogger.With(k, v)`: a new logger with one more field; the
receiver is not modified. -/
def SugaredLogger.With (l : SugaredLogger) (k v : String) : SugaredLogger :=
  { l with fields := l.fields ++ [(k, v)] }

/-- The expression `zap.New(core).Sugar()`. -/
def newSugar (core : Core) : SugaredLogger :=
  { core := core, fields := [] }

/-- The struct `AssetLog` of `models.go`, as the constructors build it (both
pointers non-nil). -/
structure AssetLog where
  sugarLogger : SugaredLogger
  conf : LoggerConfig
  deriving DecidableEq, Repr

/-! ## Code of other packages -/

/-- What the package takes from the Go runtime and its libraries.
* `unicodeUpper`: `unicode.ToUpper` on runes above `unicode.MaxASCII`.
* `yamlUnmarshal`: `yaml.Unmarshal` into a fresh `LoggerConfigs`.
* `mapRange`: the order in which `range` visits the entries of a map. -/
structure Runtime where
  unicodeUpper : Char → Char
  yamlUnmarshal : List UInt8 → Except GoError LoggerConfigs
  mapRange : StrMap → StrMap

/-- The file system, and the paths read so far (oldest first). -/
structure World where
  files : String → Except GoError (List UInt8)
  reads : List String

/-- The call `ioutil.ReadFile(path)`: the file system answers and the read is
recorded. -/
def ioutilReadFile (w : World) (path : String) : Except GoError (List UInt8) × World :=
  (w.files path, { w with reads := w.reads ++ [path] })

/-- The function `unicode.ToUpper`: ASCII letters by arithmetic, other ASCII
runes unchanged, everything else through the case table. -/
def unicodeToUpper (rt : Runtime) (r : Char) : Char :=
  if r.toNat ≤ 0x7F then
    if 'a'.toNat ≤ r.toNat ∧ r.toNat ≤ 'z'.toNat then
      Char.ofNat (r.toNat - ('a'.toNat - 'A'.toNat))
    else r
  else rt.unicodeUpper r

/-- The function `strings.ToUpper`: every rune through `unicode.ToUpper` (the
ASCII fast path of the library computes the same string). A string is a
sequence of runes here; Go turns a byte that is not valid UTF-8 into U+FFFD,
which occurs in none of the names `getLevel` compares with. -/
def stringsToUpper (rt : Runtime) (s : String) : String :=
  String.mk (s.data.map (unicodeToUpper rt))

/-- The function `strings.Compare`: 0 for equal strings, otherwise -1 or 1 by
lexicographic order (the order of the bytes of UTF-8 is the order of the
runes). -/
def stringsCompare (a b : String) : Int :=
  if a = b then 0 else if a.data < b.data then -1 else 1

/-! ## logger.go: resolvers -/

/-- The function `getWriteSyncers` (logger.go 87-102). -/
def getWriteSyncers (fileName : String) : WriteSyncer :=
  if stringsCompare fileName "stdout" = 0 then
    WriteSyncer.stdout
  else if stringsCompare fileName "stderr" = 0 then
    WriteSyncer.stderr
  else
    WriteSyncer.rotatingFile
      { Filename := fileName, MaxSize := 50, MaxBackups := 1, MaxAge := 1,
        LocalTime := false, Compress := false }

/-- The function `getLevel` (logger.go 104-120). -/
def getLevel (rt : Runtime) (level : String) : Level × Option GoError :=
  let level := stringsToUpper rt level
  if level = "DEBUG" then (Level.DebugLevel, none)
  else if level = "INFO" then (Level.InfoLevel, none)
  else if level = "WARN" then (Level.WarnLevel, none)
  else if level = "ERROR" then (Level.ErrorLevel, none)
  else if level = "FATAL" then (Level.FatalLevel, none)
  else (Level.PanicLevel, some (GoError.pkgErrorsNew "unsupported level"))

/-- The function `NewLoggerWithoutConfigFile` (logger.go 16-40). -/
def NewLoggerWithoutConfigFile (rt : Runtime) (lev : String) (outputPaths : List String)
    (appends : List String) : Option AssetLog × Option GoError :=
  match getLevel rt lev with
  | (_, some err) => (none, some err)
  | (level, none) =>
    let zapWriteSyncers := outputPaths.foldl (fun acc fileName => acc ++ [getWriteSyncers fileName]) []
    let core : Core := { enc := Encoder.jsonProduction, out := zapWriteSyncers, level := level }
    let sugarLogger := newSugar core
    let lc : LoggerConfig := { Level := lev, OutputPaths := outputPaths, Appends := appends }
    (some { sugarLogger := sugarLogger, conf := lc }, none)

/-! ## logger.go: enrichment -/

/-- A non-nil `context.Context`, read through `Value` at string keys: the
value bound to the key, `none` where `Value` returns nil. -/
abbrev Context := String → Option GoVal

/-- Reading `m[k]` with the comma-ok form. -/
def mapGet {V : Type} : List (String × V) → String → Option V
  | [], _ => none
  | (k1, v1) :: m, k => if k1 = k then some v1 else mapGet m k

/-- The assignment `m[k] = v`: an existing key keeps its place and takes the
new value, a new key is added. -/
def mapSet : StrMap → String → String → StrMap
  | [], k, v => [(k, v)]
  | (k1, v1) :: m, k, v => if k1 = k then (k, v) :: m else (k1, v1) :: mapSet m k v

/-- The single-value type assertion `ctxVal.(string)` on a non-nil value. -/
def assertString (key : String) : GoVal → Except Panic String
  | GoVal.str s => Except.ok s
  | v => Except.error (Panic.interfaceConversion key v)

/-- The loop of `getAppendMapFromContext` (logger.go 127-136) over the names
still to visit, with the map built so far. -/
def appendLoop (ctx : Context) : List String → StrMap → Except Panic StrMap
  | [], appendMap => Except.ok appendMap
  | name :: rest, appendMap =>
    match ctx name with
    | none => appendLoop ctx rest (mapSet appendMap name "")
    | some ctxVal =>
      match assertString name ctxVal with
      | Except.error p => Except.error p
      | Except.ok finalVal => appendLoop ctx rest (mapSet appendMap name finalVal)

/-- The function `getAppendMapFromContext` (logger.go 122-138); the context
argument is `none` for a nil context, the result `none` for the nil map. -/
def getAppendMapFromContext (ctx : Option Context) (appends : List String) :
    Except Panic (Option StrMap) :=
  match ctx with
  | none => Except.ok none
  | some c =>
    match appendLoop c appends [] with
    | Except.error p => Except.error p
    | Except.ok appendMap => Except.ok (some appendMap)

/-- The function `getAppendedLogger` (logger.go 140-145): `range` over a nil
map visits nothing; over a map it visits the entries in the order the runtime
picks. -/
def getAppendedLogger (rt : Runtime) (logger : SugaredLogger) (appendMap : Option StrMap) :
    SugaredLogger :=
  match appendMap with
  | none => logger
  | some m => (rt.mapRange m).foldl (fun lg kv => lg.With kv.1 kv.2) logger

/-! ## logger.go: the entry points -/

/-- One call of the sugared logger's `log(lvl, template, fmtArgs, nil)`: the
logger it goes through, the severity, the template (empty for the plain
forms) and the arguments. -/
structure LogCall where
  via : SugaredLogger
  level : Level
  template : String
  args : List GoVal
  deriving DecidableEq, Repr

def SugaredLogger.Debug (s : SugaredLogger) (args : List GoVal) : LogCall :=
  { via := s, level := Level.DebugLevel, template := "", args := args }

def SugaredLogger.Debugf (s : SugaredLogger) (template : String) (args : List GoVal) : LogCall :=
  { via := s, level := Level.DebugLevel, template := template, args := args }

def SugaredLogger.Info (s : SugaredLogger) (args : List GoVal) : LogCall :=
  { via := s, level := Level.InfoLevel, template := "", args := args }

def SugaredLogger.Infof (s : SugaredLogger) (template : String) (args : List GoVal) : LogCall :=
  { via := s, level := Level.InfoLevel, template := template, args := args }

def SugaredLogger.Warn (s : SugaredLogger) (args : List GoVal) : LogCall :=
  { via := s, level := Level.WarnLevel, template := "", args := args }

def SugaredLogger.Warnf (s : SugaredLogger) (template : String) (args : List GoVal) : LogCall :=
  { via := s, level := Level.WarnLevel, template := template, args := args }

def SugaredLogger.Error (s : SugaredLogger) (args : List GoVal) : LogCall :=
  { via := s, level := Level.ErrorLevel, template := "", args := args }

def SugaredLogger.Errorf (s : SugaredLogger) (template : String) (args : List GoVal) : LogCall :=
  { via := s, level := Level.ErrorLevel, template := template, args := args }

def SugaredLogger.Fatal (s : SugaredLogger) (args : List GoVal) : LogCall :=
  { via := s, level := Level.FatalLevel, template := "", args := args }

def SugaredLogger.Fatalf (s : SugaredLogger) (template : String) (args : List GoVal) : LogCall :=
  { via := s, level := Level.FatalLevel, template := template, args := args }

/-- The method `AssetLog.Debug` (logger.go 147-151). Every entry point returns
the receiver as it stands after the call together with the call made on the
sugared logger, or the panic that unwound it. -/
def AssetLog.Debug (rt : Runtime) (logger : AssetLog) (ctx : Option Context)
    (args : List GoVal) : Except Panic (AssetLog × LogCall) :=
  match getAppendMapFromContext ctx logger.conf.Appends with
  | Except.error p => Except.error p
  | Except.ok appendMap =>
    let appendedLogger := getAppendedLogger rt logger.sugarLogger appendMap
    Except.ok (logger, appendedLogger.Debug args)

/-- The method `AssetLog.Debugf` (logger.go 153-157). -/
def AssetLog.Debugf (rt : Runtime) (logger : AssetLog) (ctx : Option Context)
    (format : String) (args : List GoVal) : Except Panic (AssetLog × LogCall) :=
  match getAppendMapFromContext ctx logger.conf.Appends with
  | Except.error p => Except.error p
  | Except.ok appendMap =>
    let appendedLogger := getAppendedLogger rt logger.sugarLogger appendMap
    Except.ok (logger, appendedLogger.Debugf format args)

/-- The method `AssetLog.Info` (logger.go 159-163). -/
def AssetLog.Info (rt : Runtime) (logger : AssetLog) (ctx : Option Context)
    (args : List GoVal) : Except Panic (AssetLog × LogCall) :=
  match getAppendMapFromContext ctx logger.conf.Appends with
  | Except.error p => Except.error p
  | Except.ok appendMap =>
    let appendedLogger := getAppendedLogger rt logger.sugarLogger appendMap
    Except.ok (logger, appendedLogger.Info args)

/-- The method `AssetLog.Infof` (logger.go 165-169). -/
def AssetLog.Infof (rt : Runtime) (logger : AssetLog) (ctx : Option Context)
    (format : String) (args : List GoVal) : Except Panic (AssetLog × LogCall) :=
  match getAppendMapFromContext ctx logger.conf.Appends with
  | Except.error p => Except.error p
  | Except.ok appendMap =>
    let appendedLogger := getAppendedLogger rt logger.sugarLogger appendMap
    Except.ok (logger, appendedLogger.Infof format args)

/-- The method `AssetLog.Fatal` (logger.go 171-175). -/
def AssetLog.Fatal (rt : Runtime) (logger : AssetLog) (ctx : Option Context)
    (args : List GoVal) : Except Panic (AssetLog × LogCall) :=
  match getAppendMapFromContext ctx logger.conf.Appends with
  | Except.error p => Except.error p
  | Except.ok appendMap =>
    let appendedLogger := getAppendedLogger rt logger.sugarLogger appendMap
    Except.ok (logger, appendedLogger.Fatal args)

/-- The method `AssetLog.Fatalf` (logger.go 177-181). -/
def AssetLog.Fatalf (rt : Runtime) (logger : AssetLog) (ctx : Option Context)
    (format : String) (args : List GoVal) : Except Panic (AssetLog × LogCall) :=
  match getAppendMapFromContext ctx logger.conf.Appends with
  | Except.error p => Except.error p
  | Except.ok appendMap =>
    let appendedLogger := getAppendedLogger rt logger.sugarLogger appendMap
    Except.ok (logger, appendedLogger.Fatalf format args)

/-- The method `AssetLog.Warn` (logger.go 183-187). -/
def AssetLog.Warn (rt : Runtime) (logger : AssetLog) (ctx : Option Context)
    (args : List GoVal) : Except Panic (AssetLog × LogCall) :=
  match getAppendMapFromContext ctx logger.conf.Appends with
  | Except.error p => Except.error p
  | Except.ok appendMap =>
    let appendedLogger := getAppendedLogger rt logger.sugarLogger appendMap
    Except.ok (logger, appendedLogger.Warn args)

/-- The method `AssetLog.Warningf` (logger.go 189-193); it calls `Warnf`. -/
def AssetLog.Warningf (rt : Runtime) (logger : AssetLog) (ctx : Option Context)
    (format : String) (args : List GoVal) : Except Panic (AssetLog × LogCall) :=
  match getAppendMapFromContext ctx logger.conf.Appends with
  | Except.error p => Except.error p
  | Except.ok appendMap =>
    let appendedLogger := getAppendedLogger rt logger.sugarLogger appendMap
    Except.ok (logger, appendedLogger.Warnf format args)

/-- The method `AssetLog.Error` (logger.go 195-199). -/
def AssetLog.Error (rt : Runtime) (logger : AssetLog) (ctx : Option Context)
    (args : List GoVal) : Except Panic (AssetLog × LogCall) :=
  match getAppendMapFromContext ctx logger.conf.Appends with
  | Except.error p => Except.error p
  | Except.ok appendMap =>
    let appendedLogger := getAppendedLogger rt logger.sugarLogger appendMap
    Except.ok (logger, appendedLogger.Error args)

/-- The method `AssetLog.Errorf` (logger.go 201-205). -/
def AssetLog.Errorf (rt : Runtime) (logger : AssetLog) (ctx : Option Context)
    (format : String) (args : List GoVal) : Except Panic (AssetLog × LogCall) :=
  match getAppendMapFromContext ctx logger.conf.Appends with
  | Except.error p => Except.error p
  | Except.ok appendMap =>
    let appendedLogger := getAppendedLogger rt logger.sugarLogger appendMap
    Except.ok (logger, appendedLogger.Errorf format args)

/-! ## logger.go: construction from a file -/

/-- The function `NewLoggerWithConfigFile` (logger.go 42-85), with the world
before the call as an argument and the world after it in the result. -/
def NewLoggerWithConfigFile (rt : Runtime) (w : World) (env : String) (loggerFilePath : String) :
    (Option AssetLog × Option GoError) × World :=
  if env = "" then
    ((none, some (GoError.pkgErrorsNew "Env Not set")), w)
  else
    let env := if env ≠ "prod" ∧ env ≠ "test" then "dev" else env
    match ioutilReadFile w loggerFilePath with
    | (Except.error err, w1) => ((none, some err), w1)
    | (Except.ok yamlData, w1) =>
      match rt.yamlUnmarshal yamlData with
      | Except.error err => ((none, some err), w1)
      | Except.ok loggerConfigs =>
        match (mapGet loggerConfigs.Configs env).join with
        | none => ((none, some (GoError.pkgErrorsNew "Error in logger config file")), w1)
        | some conf =>
          match getLevel rt conf.Level with
          | (_, some err) => ((none, some err), w1)
          | (level, none) =>
            let zapWriteSyncers :=
              conf.OutputPaths.foldl (fun acc fileName => acc ++ [getWriteSyncers fileName]) []
            let core : Core :=
              { enc := Encoder.jsonProduction, out := zapWriteSyncers, level := level }
            let sugarLogger := newSugar core
            ((some { sugarLogger := sugarLogger, conf := conf }, none), w1)

/-! ## Spec-side vocabulary -/

/-- The five severity names of the spec with the level each stands for. -/
def severityTable : List (String × Level) :=
  [("DEBUG", Level.DebugLevel), ("INFO", Level.InfoLevel), ("WARN", Level.WarnLevel),
   ("ERROR", Level.ErrorLevel), ("FATAL", Level.FatalLevel)]

/-- The five recognised names. -/
def severityNames : List String := severityTable.map Prod.fst

/-- A case table for examples: dotless i and long s have the upper-case forms
`I` and `S`, every other rune is its own. -/
def sampleRuntime : Runtime where
  unicodeUpper := fun c =>
    if c.toNat = 0x131 then 'I' else if c.toNat = 0x17F then 'S' else c
  yamlUnmarshal := fun _ => Except.error (GoError.yaml "not a mapping")
  mapRange := fun m => m

/-! ## More spec-side vocabulary, and example inputs -/

/-- The string the loop stores for a name: the context's string, or the empty
string where the context has no value. -/
def fieldOf (c : Context) (name : String) : String :=
  match c name with
  | some (GoVal.str s) => s
  | _ => ""

/-- An example context: `request_id` is the string "abc123", `attempt` is the
integer 42, every other key is absent. -/
def sampleContext : Context := fun k =>
  if k = "request_id" then some (GoVal.str "abc123")
  else if k = "attempt" then some (GoVal.int 42)
  else none

/-- The environment key the spec describes: the string itself for "prod" and
"test", otherwise "dev". -/
def resolvedEnvironment (env : String) : String :=
  if env = "prod" ∨ env = "test" then env else "dev"

/-- The outcome the spec describes once an entry is selected: no entry (or a
nil one) is the config-missing error, an entry is direct construction from its
three fields. -/
def selectedOutcome (rt : Runtime) (sel : Option LoggerConfig) : Option AssetLog × Option GoError :=
  match sel with
  | none => (none, some (GoError.pkgErrorsNew "Error in logger config file"))
  | some conf => NewLoggerWithoutConfigFile rt conf.Level conf.OutputPaths conf.Appends

/-- A config for examples. -/
def prodConfig : LoggerConfig :=
  { Level := "error", OutputPaths := ["stderr", "/var/log/app.log"], Appends := ["request_id"] }

/-- A runtime whose decoder reads every document as a mapping with the single
entry "prod". -/
def prodOnlyRuntime : Runtime where
  unicodeUpper := fun c => c
  yamlUnmarshal := fun _ => Except.ok { Configs := [("prod", some prodConfig)] }
  mapRange := fun m => m.reverse

/-- A world with one readable file, "logger.yaml", and nothing read so far. -/
def sampleWorld : World where
  files := fun path =>
    if path = "logger.yaml" then Except.ok [] else Except.error (GoError.readFile "no such file")
  reads := []

/-- The logger `NewLoggerWithoutConfigFile` builds from "info", the single
output "stdout" and the field names "request_id" and "attempt". -/
def sampleAssetLog : AssetLog :=
  { sugarLogger :=
      { core := { enc := Encoder.jsonProduction, out := [WriteSyncer.stdout],
                  level := Level.InfoLevel },
        fields := [] },
    conf := { Level := "info", OutputPaths := ["stdout"], Appends := ["request_id", "attempt"] } }

/-! ## Helper lemmas -/

theorem stringsToUpper_names_fixed (rt : Runtime) :
    stringsToUpper rt "DEBUG" = "DEBUG" ∧ stringsToUpper rt "INFO" = "INFO" ∧
    stringsToUpper rt "WARN" = "WARN" ∧ stringsToUpper rt "ERROR" = "ERROR" ∧
    stringsToUpper rt "FATAL" = "FATAL" :=
  ⟨rfl, rfl, rfl, rfl, rfl⟩

theorem getLevel_of_upper (rt : Runtime) (s : String) :
    (stringsToUpper rt s ∈ severityNames ∧ (getLevel rt s).2 = none) ∨
    (stringsToUpper rt s ∉ severityNames ∧
      getLevel rt s = (Level.PanicLevel, some (GoError.pkgErrorsNew "unsupported level"))) := by
  unfold getLevel
  simp only [severityNames, severityTable, List.map, List.mem_cons, List.mem_singleton,
    List.not_mem_nil, or_false]
  by_cases h1 : stringsToUpper rt s = "DEBUG"
  · simp [h1]
  by_cases h2 : stringsToUpper rt s = "INFO"
  · simp [h2]
  by_cases h3 : stringsToUpper rt s = "WARN"
  · simp [h3]
  by_cases h4 : stringsToUpper rt s = "ERROR"
  · simp [h4]
  by_cases h5 : stringsToUpper rt s = "FATAL"
  · simp [h5]
  · simp [h1, h2, h3, h4, h5]

theorem stringsCompare_eq_zero (a b : String) : stringsCompare a b = 0 ↔ a = b := by
  unfold stringsCompare
  by_cases h : a = b
  · simp [h]
  · by_cases h2 : a.data < b.data <;> simp [h, h2]

theorem mapGet_mapSet_same (m : StrMap) (k v : String) : mapGet (mapSet m k v) k = some v := by
  induction m with
  | nil => simp [mapSet, mapGet]
  | cons e m ih =>
    obtain ⟨k1, v1⟩ := e
    by_cases h : k1 = k
    · simp [mapSet, mapGet, h]
    · simp [mapSet, mapGet, h, ih]

theorem mapGet_mapSet_other (m : StrMap) (k v k2 : String) (hne : k2 ≠ k) :
    mapGet (mapSet m k v) k2 = mapGet m k2 := by
  induction m with
  | nil => simp [mapSet, mapGet, Ne.symm hne]
  | cons e m ih =>
    obtain ⟨k1, v1⟩ := e
    by_cases h : k1 = k
    · subst h
      simp [mapSet, mapGet, Ne.symm hne]
    · by_cases h2 : k1 = k2
      · subst h2
        simp [mapSet, mapGet, h]
      · simp [mapSet, mapGet, h, h2, ih]

theorem keys_mapSet (m : StrMap) (k v k2 : String) :
    k2 ∈ (mapSet m k v).map Prod.fst ↔ k2 = k ∨ k2 ∈ m.map Prod.fst := by
  induction m with
  | nil => simp [mapSet]
  | cons e m ih =>
    obtain ⟨k1, v1⟩ := e
    by_cases h : k1 = k
    · subst h
      simp [mapSet]
    · simp only [mapSet, h, if_false, List.map_cons, List.mem_cons, ih]
      tauto

theorem nodup_keys_mapSet (m : StrMap) (k v : String) (hm : (m.map Prod.fst).Nodup) :
    ((mapSet m k v).map Prod.fst).Nodup := by
  induction m with
  | nil => simp [mapSet]
  | cons e m ih =>
    obtain ⟨k1, v1⟩ := e
    simp only [List.map_cons, List.nodup_cons] at hm
    by_cases h : k1 = k
    · subst h
      simpa [mapSet] using hm
    · simp only [mapSet, h, if_false, List.map_cons, List.nodup_cons]
      refine ⟨?_, ih hm.2⟩
      intro hmem
      rcases (keys_mapSet m k v k1).1 hmem with h3 | h3
      · exact h h3
      · exact hm.1 h3

theorem appendLoop_step (c : Context) (name : String) (rest : List String) (m : StrMap)
    (h : c name = none ∨ ∃ s, c name = some (GoVal.str s)) :
    appendLoop c (name :: rest) m = appendLoop c rest (mapSet m name (fieldOf c name)) := by
  rcases h with h | ⟨s, h⟩
  · simp [appendLoop, fieldOf, h]
  · simp [appendLoop, fieldOf, h, assertString]

theorem appendLoop_ok (c : Context) (names : List String) :
    ∀ m : StrMap, (∀ name ∈ names, c name = none ∨ ∃ s, c name = some (GoVal.str s)) →
    ∃ r : StrMap, appendLoop c names m = Except.ok r ∧
      (∀ k, k ∈ r.map Prod.fst ↔ k ∈ m.map Prod.fst ∨ k ∈ names) ∧
      ((m.map Prod.fst).Nodup → (r.map Prod.fst).Nodup) ∧
      (∀ k ∈ names, mapGet r k = some (fieldOf c k)) ∧
      (∀ k, k ∉ names → mapGet r k = mapGet m k) := by
  induction names with
  | nil =>
    intro m _
    exact ⟨m, by simp [appendLoop], by simp, id, by simp, fun _ _ => rfl⟩
  | cons name rest ih =>
    intro m h
    have hhead := h name (List.mem_cons_self _ _)
    have htail : ∀ n ∈ rest, c n = none ∨ ∃ s, c n = some (GoVal.str s) :=
      fun n hn => h n (List.mem_cons_of_mem _ hn)
    obtain ⟨r, hr, hkeys, hnodup, hin, hout⟩ := ih (mapSet m name (fieldOf c name)) htail
    refine ⟨r, ?_, ?_, ?_, ?_, ?_⟩
    · rw [appendLoop_step c name rest m hhead, hr]
    · intro k
      rw [hkeys k, keys_mapSet, List.mem_cons]
      tauto
    · intro hm
      exact hnodup (nodup_keys_mapSet m name _ hm)
    · intro k hk
      by_cases hkr : k ∈ rest
      · exact hin k hkr
      · have hkn : k = name := by
          rcases List.mem_cons.1 hk with h1 | h1
          · exact h1
          · exact absurd h1 hkr
        rw [hout k hkr, hkn, mapGet_mapSet_same]
    · intro k hk
      have hk1 : k ≠ name := fun h1 => hk (h1 ▸ List.mem_cons_self _ _)
      have hk2 : k ∉ rest := fun h1 => hk (List.mem_cons_of_mem _ h1)
      rw [hout k hk2, mapGet_mapSet_other m name _ k hk1]

/-! ## Claims -/

/-- C1: for every string whose upper-cased form is one of DEBUG, INFO, WARN,
ERROR, FATAL, `getLevel` returns the matching level and no error; the result
is the one `getLevel` gives on the upper-cased form, and any other string with
the same upper-cased form gets the same result. -/
theorem getLevel_resolves_valid_names (rt : Runtime) (s : String) (lvl : Level)
    (h : (stringsToUpper rt s, lvl) ∈ severityTable) :
    getLevel rt s = (lvl, none) ∧
    getLevel rt (stringsToUpper rt s) = getLevel rt s ∧
    ∀ t : String, stringsToUpper rt t = stringsToUpper rt s → getLevel rt t = getLevel rt s := by
  refine ⟨?_, ?_, ?_⟩
  · simp only [severityTable, List.mem_cons, List.mem_singleton, List.not_mem_nil, or_false,
      Prod.mk.injEq] at h
    unfold getLevel
    rcases h with ⟨h1, h2⟩ | ⟨h1, h2⟩ | ⟨h1, h2⟩ | ⟨h1, h2⟩ | ⟨h1, h2⟩ <;>
      simp [h1, h2]
  · simp only [severityTable, List.mem_cons, List.mem_singleton, List.not_mem_nil, or_false,
      Prod.mk.injEq] at h
    have hfix := stringsToUpper_names_fixed rt
    unfold getLevel
    rcases h with ⟨h1, _⟩ | ⟨h1, _⟩ | ⟨h1, _⟩ | ⟨h1, _⟩ | ⟨h1, _⟩ <;>
      simp [h1, hfix.1, hfix.2.1, hfix.2.2.1, hfix.2.2.2.1, hfix.2.2.2.2]
  · intro t ht
    unfold getLevel
    simp [ht]

theorem getLevel_resolves_valid_names_witness :
    getLevel sampleRuntime "iNfO" = (Level.InfoLevel, none) ∧
    getLevel sampleRuntime (stringsToUpper sampleRuntime "iNfO") = getLevel sampleRuntime "iNfO" ∧
    ∀ t : String, stringsToUpper sampleRuntime t = stringsToUpper sampleRuntime "iNfO" →
      getLevel sampleRuntime t = getLevel sampleRuntime "iNfO" :=
  getLevel_resolves_valid_names sampleRuntime "iNfO" Level.InfoLevel (by decide)

/-- C2: `NewLoggerWithoutConfigFile` returns the unsupported-level error and a
nil logger for every severity string whose upper-cased form is not one of the
five names, whatever the output paths and append names; it returns an error
only for such strings, and for the others it returns a logger. -/
theorem NewLoggerWithoutConfigFile_error_iff_unsupported (rt : Runtime) (lev : String)
    (outputPaths appends : List String) :
    (stringsToUpper rt lev ∉ severityNames →
      NewLoggerWithoutConfigFile rt lev outputPaths appends =
        (none, some (GoError.pkgErrorsNew "unsupported level"))) ∧
    ((NewLoggerWithoutConfigFile rt lev outputPaths appends).2 ≠ none →
      stringsToUpper rt lev ∉ severityNames) ∧
    (stringsToUpper rt lev ∈ severityNames →
      ∃ al : AssetLog, NewLoggerWithoutConfigFile rt lev outputPaths appends = (some al, none)) := by
  rcases getLevel_of_upper rt lev with ⟨hin, hok⟩ | ⟨hout, herr⟩
  · have hshape : ∃ l, getLevel rt lev = (l, none) := ⟨(getLevel rt lev).1, by rw [← hok]⟩
    obtain ⟨l, hl⟩ := hshape
    refine ⟨fun hn => absurd hin hn, ?_, ?_⟩
    · intro hne
      exfalso
      apply hne
      simp [NewLoggerWithoutConfigFile, hl]
    · intro _
      simp [NewLoggerWithoutConfigFile, hl]
  · refine ⟨fun _ => by simp [NewLoggerWithoutConfigFile, herr], fun _ => hout,
      fun hin => absurd hin hout⟩

theorem NewLoggerWithoutConfigFile_error_iff_unsupported_witness :
    NewLoggerWithoutConfigFile sampleRuntime "verbose" ["stdout"] ["request_id"] =
        (none, some (GoError.pkgErrorsNew "unsupported level")) ∧
    ∃ al : AssetLog,
      NewLoggerWithoutConfigFile sampleRuntime "Warn" ["stdout"] ["request_id"] = (some al, none) :=
  ⟨(NewLoggerWithoutConfigFile_error_iff_unsupported sampleRuntime "verbose" ["stdout"]
      ["request_id"]).1 (by decide),
   (NewLoggerWithoutConfigFile_error_iff_unsupported sampleRuntime "Warn" ["stdout"]
      ["request_id"]).2.2 (by decide)⟩

/-- C9: `getWriteSyncers` is total; it returns standard output exactly for
"stdout", standard error exactly for "stderr", and for every other identifier
(among them "STDOUT" and the empty string) a rotating file whose path is the
identifier itself with max size 50, max backups 1 and max age 1. -/
theorem getWriteSyncers_three_kinds (fileName : String) :
    (getWriteSyncers fileName = WriteSyncer.stdout ↔ fileName = "stdout") ∧
    (getWriteSyncers fileName = WriteSyncer.stderr ↔ fileName = "stderr") ∧
    (fileName ≠ "stdout" → fileName ≠ "stderr" →
      getWriteSyncers fileName = WriteSyncer.rotatingFile
        { Filename := fileName, MaxSize := 50, MaxBackups := 1, MaxAge := 1,
          LocalTime := false, Compress := false }) ∧
    getWriteSyncers "STDOUT" = WriteSyncer.rotatingFile
        { Filename := "STDOUT", MaxSize := 50, MaxBackups := 1, MaxAge := 1,
          LocalTime := false, Compress := false } ∧
    getWriteSyncers "" = WriteSyncer.rotatingFile
        { Filename := "", MaxSize := 50, MaxBackups := 1, MaxAge := 1,
          LocalTime := false, Compress := false } := by
  refine ⟨?_, ?_, ?_, by decide, by decide⟩
  · unfold getWriteSyncers
    by_cases h1 : fileName = "stdout"
    · simp [stringsCompare_eq_zero, h1]
    · by_cases h2 : fileName = "stderr" <;> simp [stringsCompare_eq_zero, h1, h2]
  · unfold getWriteSyncers
    by_cases h1 : fileName = "stdout"
    · subst h1
      simp [stringsCompare_eq_zero]
    · by_cases h2 : fileName = "stderr" <;> simp [stringsCompare_eq_zero, h1, h2]
  · intro h1 h2
    simp [getWriteSyncers, stringsCompare_eq_zero, h1, h2]

theorem getWriteSyncers_three_kinds_witness :
    getWriteSyncers "/var/log/app.log" = WriteSyncer.rotatingFile
        { Filename := "/var/log/app.log", MaxSize := 50, MaxBackups := 1, MaxAge := 1,
          LocalTime := false, Compress := false } :=
  (getWriteSyncers_three_kinds "/var/log/app.log").2.2.1 (by decide) (by decide)

/-- C6: with the empty environment string `NewLoggerWithConfigFile` returns the
error "Env Not set" and a nil logger and leaves the world as it was (no file
is read), for every file system, decoder and path. -/
theorem NewLoggerWithConfigFile_empty_env (rt : Runtime) (w : World) (loggerFilePath : String) :
    NewLoggerWithConfigFile rt w "" loggerFilePath =
      ((none, some (GoError.pkgErrorsNew "Env Not set")), w) := by
  simp [NewLoggerWithConfigFile]

/-- C3: for a non-nil context whose values at the configured names are strings
or absent, and any list of names (repeats included), `getAppendMapFromContext`
returns a map whose keys are exactly the configured names, each once; a name
with a context value maps to that string and a name without one maps to the
empty string. -/
theorem getAppendMapFromContext_every_name_present (c : Context) (appends : List String)
    (h : ∀ name ∈ appends, c name = none ∨ ∃ s, c name = some (GoVal.str s)) :
    ∃ m : StrMap, getAppendMapFromContext (some c) appends = Except.ok (some m) ∧
      (∀ k, k ∈ m.map Prod.fst ↔ k ∈ appends) ∧
      (m.map Prod.fst).Nodup ∧
      (∀ k ∈ appends, ∀ s, c k = some (GoVal.str s) → mapGet m k = some s) ∧
      (∀ k ∈ appends, c k = none → mapGet m k = some "") := by
  obtain ⟨r, hr, hkeys, hnodup, hin, _⟩ := appendLoop_ok c appends [] h
  refine ⟨r, by simp [getAppendMapFromContext, hr], ?_, hnodup (by simp), ?_, ?_⟩
  · intro k
    simpa using hkeys k
  · intro k hk s hs
    rw [hin k hk]
    simp [fieldOf, hs]
  · intro k hk hnone
    rw [hin k hk]
    simp [fieldOf, hnone]

theorem getAppendMapFromContext_every_name_present_witness :
    ∃ m : StrMap,
      getAppendMapFromContext (some sampleContext) ["request_id", "user", "request_id"] =
        Except.ok (some m) ∧
      (∀ k, k ∈ m.map Prod.fst ↔ k ∈ ["request_id", "user", "request_id"]) ∧
      (m.map Prod.fst).Nodup ∧
      (∀ k ∈ ["request_id", "user", "request_id"], ∀ s,
        sampleContext k = some (GoVal.str s) → mapGet m k = some s) ∧
      (∀ k ∈ ["request_id", "user", "request_id"], sampleContext k = none → mapGet m k = some "") :=
  getAppendMapFromContext_every_name_present sampleContext ["request_id", "user", "request_id"]
    (by
      intro name hn
      simp only [List.mem_cons, List.mem_singleton, List.not_mem_nil, or_false] at hn
      rcases hn with rfl | rfl | rfl
      · exact Or.inr ⟨"abc123", by decide⟩
      · exact Or.inl (by decide)
      · exact Or.inr ⟨"abc123", by decide⟩)

/-- C5: for a nil context `getAppendMapFromContext` returns the nil map (no
entries) for every list of names; `getAppendedLogger` on any logger and that
map returns the logger itself, so an entry point called with a nil context
logs through the stored logger with no field added. -/
theorem nil_context_attaches_nothing (rt : Runtime) (logger : SugaredLogger)
    (appends : List String) (al : AssetLog) (args : List GoVal) :
    getAppendMapFromContext none appends = Except.ok none ∧
    getAppendedLogger rt logger none = logger ∧
    AssetLog.Info rt al none args = Except.ok (al, al.sugarLogger.Info args) := by
  refine ⟨rfl, rfl, rfl⟩

theorem NewLoggerWithConfigFile_after_parse (rt : Runtime) (w : World) (env path : String)
    (data : List UInt8) (cs : LoggerConfigs) (h0 : env ≠ "")
    (hread : w.files path = Except.ok data) (hparse : rt.yamlUnmarshal data = Except.ok cs) :
    NewLoggerWithConfigFile rt w env path =
      (selectedOutcome rt (mapGet cs.Configs (resolvedEnvironment env)).join,
        { w with reads := w.reads ++ [path] }) := by
  have henv : (if env ≠ "prod" ∧ env ≠ "test" then "dev" else env) = resolvedEnvironment env := by
    unfold resolvedEnvironment
    by_cases h1 : env = "prod"
    · simp [h1]
    · by_cases h2 : env = "test" <;> simp [h1, h2]
  simp only [NewLoggerWithConfigFile, h0, if_false, ioutilReadFile, hread, hparse, henv]
  cases hsel : (mapGet cs.Configs (resolvedEnvironment env)).join with
  | none => simp [selectedOutcome]
  | some conf =>
    simp only [selectedOutcome, NewLoggerWithoutConfigFile]
    rcases hgl : getLevel rt conf.Level with ⟨l, _ | e⟩ <;> simp

/-- C7: for every non-empty environment string other than "prod" and "test",
`NewLoggerWithConfigFile` gives the outcome it gives for "dev" (same result,
same world), for every path, file system and decoder; and once the file is
read and parsed the outcome is the one of the entry at the resolved key, which
for "prod" and "test" is the string itself. -/
theorem NewLoggerWithConfigFile_env_as_dev (rt : Runtime) (w : World) (env path : String)
    (h0 : env ≠ "") :
    (env ≠ "prod" → env ≠ "test" →
      NewLoggerWithConfigFile rt w env path = NewLoggerWithConfigFile rt w "dev" path) ∧
    (env = "prod" ∨ env = "test" →
      ∀ (data : List UInt8) (cs : LoggerConfigs),
        w.files path = Except.ok data → rt.yamlUnmarshal data = Except.ok cs →
        (NewLoggerWithConfigFile rt w env path).1 = selectedOutcome rt (mapGet cs.Configs env).join) := by
  constructor
  · intro h1 h2
    simp [NewLoggerWithConfigFile, h0, h1, h2]
  · intro hpt data cs hread hparse
    rw [NewLoggerWithConfigFile_after_parse rt w env path data cs h0 hread hparse]
    simp [resolvedEnvironment, hpt]

theorem NewLoggerWithConfigFile_env_as_dev_witness :
    NewLoggerWithConfigFile prodOnlyRuntime sampleWorld "staging" "logger.yaml" =
        NewLoggerWithConfigFile prodOnlyRuntime sampleWorld "dev" "logger.yaml" ∧
    (NewLoggerWithConfigFile prodOnlyRuntime sampleWorld "prod" "logger.yaml").1 =
        selectedOutcome prodOnlyRuntime (some prodConfig) :=
  ⟨(NewLoggerWithConfigFile_env_as_dev prodOnlyRuntime sampleWorld "staging" "logger.yaml"
      (by decide)).1 (by decide) (by decide),
   (NewLoggerWithConfigFile_env_as_dev prodOnlyRuntime sampleWorld "prod" "logger.yaml"
      (by decide)).2 (Or.inl rfl) [] { Configs := [("prod", some prodConfig)] } rfl rfl⟩

/-- C8: for a non-empty environment string, a file that is read and a document
that is parsed, if the mapping has no entry at the resolved key (the string
itself for "prod" and "test", otherwise "dev") then `NewLoggerWithConfigFile`
returns the error "Error in logger config file" and a nil logger, whatever the
other entries are. -/
theorem NewLoggerWithConfigFile_missing_entry (rt : Runtime) (w : World) (env path : String)
    (data : List UInt8) (cs : LoggerConfigs) (h0 : env ≠ "")
    (hread : w.files path = Except.ok data) (hparse : rt.yamlUnmarshal data = Except.ok cs)
    (hmiss : mapGet cs.Configs (resolvedEnvironment env) = none) :
    (NewLoggerWithConfigFile rt w env path).1 =
      (none, some (GoError.pkgErrorsNew "Error in logger config file")) := by
  rw [NewLoggerWithConfigFile_after_parse rt w env path data cs h0 hread hparse, hmiss]
  rfl

theorem NewLoggerWithConfigFile_missing_entry_witness :
    (NewLoggerWithConfigFile prodOnlyRuntime sampleWorld "staging" "logger.yaml").1 =
      (none, some (GoError.pkgErrorsNew "Error in logger config file")) :=
  NewLoggerWithConfigFile_missing_entry prodOnlyRuntime sampleWorld "staging" "logger.yaml" []
    { Configs := [("prod", some prodConfig)] } (by decide) rfl rfl (by decide)

theorem foldl_With (es : List (String × String)) :
    ∀ lg : SugaredLogger,
      (es.foldl (fun l kv => l.With kv.1 kv.2) lg).core = lg.core ∧
      (es.foldl (fun l kv => l.With kv.1 kv.2) lg).fields = lg.fields ++ es := by
  induction es with
  | nil => intro lg; simp
  | cons e es ih =>
    intro lg
    obtain ⟨h1, h2⟩ := ih (lg.With e.1 e.2)
    simp only [List.foldl_cons]
    refine ⟨by rw [h1]; rfl, ?_⟩
    rw [h2]
    simp [SugaredLogger.With]

/-- The view `getAppendedLogger` derives keeps the core of the logger it starts
from, and its fields are the logger's fields followed by the entries of the
map in some order (given that `range` visits every entry once). -/
theorem getAppendedLogger_fields (rt : Runtime) (hrange : ∀ m, (rt.mapRange m).Perm m)
    (logger : SugaredLogger) (appendMap : Option StrMap) :
    (getAppendedLogger rt logger appendMap).core = logger.core ∧
    ∃ es : List (String × String), es.Perm (appendMap.getD []) ∧
      (getAppendedLogger rt logger appendMap).fields = logger.fields ++ es := by
  cases appendMap with
  | none => exact ⟨rfl, [], by simp, by simp [getAppendedLogger]⟩
  | some m =>
    obtain ⟨h1, h2⟩ := foldl_With (rt.mapRange m) logger
    exact ⟨h1, rt.mapRange m, by simpa using hrange m, h2⟩

/-- Whenever the enrichment map is computed, each of the ten entry points
returns the receiver as it was and one call on the derived view, at its own
severity, with its own template and arguments. -/
theorem entry_points_after_enrichment (rt : Runtime) (al : AssetLog) (ctx : Option Context)
    (appendMap : Option StrMap) (format : String) (args : List GoVal)
    (hmap : getAppendMapFromContext ctx al.conf.Appends = Except.ok appendMap) :
    let view := getAppendedLogger rt al.sugarLogger appendMap
    AssetLog.Debug rt al ctx args = Except.ok (al, ⟨view, Level.DebugLevel, "", args⟩) ∧
    AssetLog.Debugf rt al ctx format args = Except.ok (al, ⟨view, Level.DebugLevel, format, args⟩) ∧
    AssetLog.Info rt al ctx args = Except.ok (al, ⟨view, Level.InfoLevel, "", args⟩) ∧
    AssetLog.Infof rt al ctx format args = Except.ok (al, ⟨view, Level.InfoLevel, format, args⟩) ∧
    AssetLog.Warn rt al ctx args = Except.ok (al, ⟨view, Level.WarnLevel, "", args⟩) ∧
    AssetLog.Warningf rt al ctx format args = Except.ok (al, ⟨view, Level.WarnLevel, format, args⟩) ∧
    AssetLog.Error rt al ctx args = Except.ok (al, ⟨view, Level.ErrorLevel, "", args⟩) ∧
    AssetLog.Errorf rt al ctx format args = Except.ok (al, ⟨view, Level.ErrorLevel, format, args⟩) ∧
    AssetLog.Fatal rt al ctx args = Except.ok (al, ⟨view, Level.FatalLevel, "", args⟩) ∧
    AssetLog.Fatalf rt al ctx format args = Except.ok (al, ⟨view, Level.FatalLevel, format, args⟩) := by
  simp only [AssetLog.Debug, AssetLog.Debugf, AssetLog.Info, AssetLog.Infof, AssetLog.Warn,
    AssetLog.Warningf, AssetLog.Error, AssetLog.Errorf, AssetLog.Fatal, AssetLog.Fatalf, hmap,
    SugaredLogger.Debug, SugaredLogger.Debugf, SugaredLogger.Info, SugaredLogger.Infof,
    SugaredLogger.Warn, SugaredLogger.Warnf, SugaredLogger.Error, SugaredLogger.Errorf,
    SugaredLogger.Fatal, SugaredLogger.Fatalf, and_self]

/-- C4 (the code at the failing input): the logger built by
`NewLoggerWithoutConfigFile` with the field names "request_id" and "attempt"
is given a context that holds the integer 42 at "attempt"; the enrichment step
does not yield a map, it panics on the type assertion, and `Info` passes the
panic on to its caller. -/
theorem enrichment_panics_on_non_string_value :
    NewLoggerWithoutConfigFile sampleRuntime "info" ["stdout"] ["request_id", "attempt"] =
      (some sampleAssetLog, none) ∧
    getAppendMapFromContext (some sampleContext) sampleAssetLog.conf.Appends =
      Except.error (Panic.interfaceConversion "attempt" (GoVal.int 42)) ∧
    AssetLog.Info sampleRuntime sampleAssetLog (some sampleContext) [GoVal.str "hello"] =
      Except.error (Panic.interfaceConversion "attempt" (GoVal.int 42)) := by
  refine ⟨by decide, rfl, rfl⟩

/-- C10 (the code at the failing input): with the integer 42 in the context at
the configured name "attempt", none of the ten entry points reaches the call on
the sugared logger; each one ends in the panic of the enrichment step. -/
theorem entry_points_panic_on_non_string_value :
    let p : Except Panic (AssetLog × LogCall) :=
      Except.error (Panic.interfaceConversion "attempt" (GoVal.int 42))
    let ctx : Option Context := some sampleContext
    AssetLog.Debug sampleRuntime sampleAssetLog ctx [GoVal.str "hello"] = p ∧
    AssetLog.Debugf sampleRuntime sampleAssetLog ctx "%s" [GoVal.str "hello"] = p ∧
    AssetLog.Info sampleRuntime sampleAssetLog ctx [GoVal.str "hello"] = p ∧
    AssetLog.Infof sampleRuntime sampleAssetLog ctx "%s" [GoVal.str "hello"] = p ∧
    AssetLog.Warn sampleRuntime sampleAssetLog ctx [GoVal.str "hello"] = p ∧
    AssetLog.Warningf sampleRuntime sampleAssetLog ctx "%s" [GoVal.str "hello"] = p ∧
    AssetLog.Error sampleRuntime sampleAssetLog ctx [GoVal.str "hello"] = p ∧
    AssetLog.Errorf sampleRuntime sampleAssetLog ctx "%s" [GoVal.str "hello"] = p ∧
    AssetLog.Fatal sampleRuntime sampleAssetLog ctx [GoVal.str "hello"] = p ∧
    AssetLog.Fatalf sampleRuntime sampleAssetLog ctx "%s" [GoVal.str "hello"] = p := by
  refine ⟨rfl, rfl, rfl, rfl, rfl, rfl, rfl, rfl, rfl, rfl⟩

end MTGoLogger
